import Mathlib

/-!
Verification of the sweep controller in `src/src/mainSerial.cpp` (the `pegSerial`
command-line driver).  The controller logic of `main` is embedded shallowly:

* C++ `double` values are embedded as `ℚ` where the program only performs field
  arithmetic on them, and as `ℝ` where transcendental functions (`asin`, `cos`,
  `M_PI`) are involved.
* The opaque diffraction solver (`PEGrating::getEff`, declared in `PEG.h`, whose
  definition is not part of the material under `src/`) is treated as an abstract
  function supplied to the run; the grating object, the math options and the
  debug flag are fixed for the whole run (lines 156-176 of `mainSerial.cpp`) and
  are absorbed into that function.
* Fallible or non-finite computations are embedded with `Option`: the `NaN`
  produced by `asin` outside `[-1, 1]` becomes `none`, and the undefined
  behaviour of converting a `NaN` double to `int` becomes `none`.
-/

namespace PEG

/-- Operating mode of the sweep (`--mode`, `PECommandLineOptions::mode`),
`mainSerial.cpp` line 45. -/
inductive Mode
  | ConstantIncidence
  | ConstantIncludedAngle
  | ConstantWavelength
deriving DecidableEq

/-- Outcome tag of one solver invocation.  The controller only branches on
`result.status == PEResult::Success` (line 214), so the status is collapsed to
success versus failure. -/
inductive PEResultStatus
  | Success
  | Failure
deriving DecidableEq

/-- The already-validated command-line options consumed by `main`
(`PECommandLineOptions`, declared in `PEMainSupport.h`).  Only the fields the
controller itself reads are kept; doubles are embedded as `ℚ`.  The string
field `progressFile` is abstracted to whether it is non-empty (the only way the
code inspects it, lines 132, 150, 228). -/
structure PECommandLineOptions where
  mode : Mode
  min : ℚ
  max : ℚ
  increment : ℚ
  incidenceAngle : ℚ
  includedAngle : ℚ
  toOrder : ℤ
  wavelength : ℚ
  eV : Bool
  period : ℚ
  progressFile : Bool
  printDebugOutput : Bool
deriving DecidableEq

/-- `hc = 1.23984172 eV * um`, the photon-energy / wavelength product constant
(`M_HC`, used at line 191). -/
def M_HC : ℚ := 1.23984172

/-- C++ float-to-int conversion: truncation toward zero. -/
def ratTrunc (q : ℚ) : ℤ := if 0 ≤ q then ⌊q⌋ else ⌈q⌉

/-- `int totalSteps = int((io.max - io.min)/io.increment) + 1;`
(`mainSerial.cpp` line 146).  When `increment = 0` the double division yields
`NaN` (or `±inf`), and converting that to `int` is undefined behaviour in C++;
this is embedded as `none`.  For `increment ≠ 0` the exact rational value is
truncated toward zero as the C++ conversion does. -/
def totalSteps (io : PECommandLineOptions) : Option ℤ :=
  if io.increment = 0 then none
  else some (ratTrunc ((io.max - io.min) / io.increment) + 1)

/-- `double currentValue = io.min + io.increment*i;` (line 186). -/
def currentValue (io : PECommandLineOptions) (i : ℕ) : ℚ :=
  io.min + io.increment * i

/-- The unit conversion applied to a sweep value (lines 189-191): the value is
returned unchanged unless `--eV` was given, in which case it is interpreted as
a photon energy and converted via `wavelength = hc / eV`.  The C++ code
performs the division unconditionally; at `value = 0` the double division
yields `+inf` (IEEE, no trap) — embedded over `ℚ`, where division by zero
returns the junk value `0`.  In neither semantics is an error signalled. -/
def toWavelength (value : ℚ) (isEnergyUnits : Bool) : ℚ :=
  if isEnergyUnits then M_HC / value else value

/-- Modelled from the spec: section 4.1 describes the UnitConverter contract
with an explicit failure, "Fails (domain error) if `value == 0`"; no such check
exists in `mainSerial.cpp` (the only unit-conversion code under `src/`).  This
definition follows the spec words, returning `none` on the domain error, and is
compared against the code's `toWavelength`. -/
def toWavelengthSpec (value : ℚ) (isEnergyUnits : Bool) : Option ℚ :=
  if isEnergyUnits then
    if value = 0 then none else some (M_HC / value)
  else some value

/-- The wavelength used at step `i` (lines 189-191): the fixed `--wavelength`
in constant-wavelength mode, otherwise the sweep coordinate, then the `--eV`
conversion. -/
def stepWavelength (io : PECommandLineOptions) (i : ℕ) : ℚ :=
  let w := if io.mode = Mode.ConstantWavelength then io.wavelength else currentValue io i
  if io.eV then M_HC / w else w

theorem stepWavelength_eq_toWavelength (io : PECommandLineOptions) (i : ℕ) :
    stepWavelength io i =
      toWavelength
        (if io.mode = Mode.ConstantWavelength then io.wavelength else currentValue io i)
        io.eV := rfl

/-- The argument passed to `asin` in constant-included-angle mode (line 201):
`-io.toOrder*wavelength/2/io.period/cos(ciaRad/2)` with
`ciaRad = io.includedAngle * M_PI / 180` (line 200). -/
noncomputable def ciaArg (io : PECommandLineOptions) (i : ℕ) : ℝ :=
  -(io.toOrder : ℝ) * (stepWavelength io i : ℝ) / 2 / (io.period : ℝ) /
    Real.cos (((io.includedAngle : ℝ) * Real.pi / 180) / 2)

/-- The incidence angle determined for step `i` (the `switch(io.mode)` at lines
195-210), in degrees.  In constant-included-angle mode the C library `asin`
returns `NaN` when its argument is outside `[-1, 1]`; the resulting non-real
angle is embedded as `none`. -/
noncomputable def incidenceAngle (io : PECommandLineOptions) (i : ℕ) : Option ℝ :=
  match io.mode with
  | Mode.ConstantIncidence => some ((io.incidenceAngle : ℚ) : ℝ)
  | Mode.ConstantIncludedAngle =>
      if 1 < |ciaArg io i| then none
      else some ((Real.arcsin (ciaArg io i) +
        ((io.includedAngle : ℝ) * Real.pi / 180) / 2) * 180 / Real.pi)
  | Mode.ConstantWavelength => some ((currentValue io i : ℚ) : ℝ)

/-- A solver for the run: the abstraction of `grating->getEff(incidenceAngle,
wavelength, mathOptions, io.printDebugOutput)` (line 213).  The grating object,
the math options and the debug flag are fixed over the whole run and are
absorbed into the function; the possibly non-real (`NaN`) incidence angle is
passed as an `Option ℝ`.  It returns the status tag and the ordered efficiency
values. -/
def Solver : Type := Option ℝ → ℚ → PEResultStatus × List ℚ

/-- Modelled from the spec: the body of `PEGrating::getEff` (PEGrating /
PESolver) is not under `src/`.  Sections 4.3 and 7 of the spec require that any
degenerate physical input — here the non-real incidence angle produced by an
out-of-range arcsine — surfaces as a Failure status and never as a fault, so
the sweep can continue.  For well-defined inputs the solver is the opaque
`core`. -/
def getEff (core : ℝ → ℚ → PEResultStatus × List ℚ) : Solver :=
  fun a w =>
    match a with
    | none => (PEResultStatus.Failure, [])
    | some angle => core angle w

/-- One step's `PEResult` as accumulated by the controller.  Modelled from the
spec for the fields: `PEResult` is declared in `PEG.h` (not under `src/`); the
spec data model gives a StepResult as
`stepIndex, coordinateValue, status, ordered efficiency values`. -/
structure PEResult where
  stepIndex : ℕ
  coordinateValue : ℚ
  status : PEResultStatus
  efficiencies : List ℚ
deriving DecidableEq

/-- The result produced at step `i` (lines 186-218): the solver is invoked on
the step's incidence angle and wavelength, and the result is tagged with the
step's index and sweep coordinate. -/
noncomputable def stepResult (io : PECommandLineOptions) (solver : Solver) (i : ℕ) :
    PEResult :=
  let r := solver (incidenceAngle io i) (stepWavelength io i)
  { stepIndex := i
    coordinateValue := currentValue io i
    status := r.1
    efficiencies := r.2 }

/-- Overall run status tag written in the `# Progress` section. -/
inductive RunStatus
  | InProgress
  | Succeeded
  | SomeFailed
  | AllFailed
deriving DecidableEq

/-- Modelled from the spec: the body of `writeOutputFileProgress`
(PEMainSupport) is not under `src/`; section 4.4 of the spec gives the status
derivation as a pure function with this total precedence:
`completedSteps < totalSteps` gives InProgress; otherwise
`anySuccess && anyFailure` gives SomeFailed; otherwise `anyFailure` gives
AllFailed; otherwise Succeeded. -/
def runStatus (completedSteps totalSteps : ℤ) (anySuccess anyFailure : Bool) :
    RunStatus :=
  if completedSteps < totalSteps then RunStatus.InProgress
  else if anySuccess && anyFailure then RunStatus.SomeFailed
  else if anyFailure then RunStatus.AllFailed
  else RunStatus.Succeeded

/-- The data of one `# Progress` block as written by `writeOutputFileProgress`:
the derived status plus the step counters. -/
structure ProgressRecord where
  status : RunStatus
  completedSteps : ℤ
  totalSteps : ℤ
deriving DecidableEq

/-- Modelled from the spec: one call to `writeOutputFileProgress(stream,
completed, total, anySuccesses, anyFailures)` records the progress block with
the status derived by `runStatus`. -/
def writeProgress (completed total : ℤ) (anySuccess anyFailure : Bool) :
    ProgressRecord :=
  { status := runStatus completed total anySuccess anyFailure
    completedSteps := completed
    totalSteps := total }

/-- The controller's mutable state (lines 179-181): the two aggregate flags and
the growing result vector, plus the sequence of progress blocks written so far
(one before the loop, line 149, and one after every step, lines 222 and 230 —
the same block goes to both artifacts). -/
structure RunState where
  anySuccesses : Bool
  anyFailures : Bool
  results : List PEResult
  progress : List ProgressRecord
deriving DecidableEq

/-- State before the loop: both flags false, no results, and the initial
progress block `writeOutputFileProgress(_, 0, totalSteps, false, false)`
(line 149) already written. -/
def initState (t : ℤ) : RunState :=
  { anySuccesses := false
    anyFailures := false
    results := []
    progress := [writeProgress 0 t false false] }

/-- One iteration of the calculation loop (lines 184-233): run the solver,
update exactly one of the two flags by the monotonic OR (lines 214-217), append
the result (line 218), then write the progress block with `completedSteps =
i+1` and the updated flags (lines 221-231). -/
noncomputable def doStep (io : PECommandLineOptions) (solver : Solver) (t : ℤ)
    (st : RunState) (i : ℕ) : RunState :=
  let r := stepResult io solver i
  let st1 :=
    if r.status = PEResultStatus.Success then { st with anySuccesses := true }
    else { st with anyFailures := true }
  { st1 with
    results := st1.results ++ [r]
    progress := st1.progress ++
      [writeProgress ((i : ℤ) + 1) t st1.anySuccesses st1.anyFailures] }

/-- The controller state after the first `n` iterations of the loop. -/
noncomputable def runSteps (io : PECommandLineOptions) (solver : Solver) (t : ℤ) :
    ℕ → RunState
  | 0 => initState t
  | n + 1 => doStep io solver t (runSteps io solver t n) n

/-- Outcome of one invocation of `main` past command-line validation:
the process exit code, and the final controller state (`none` when the run
aborted at startup, before any step). -/
structure MainOutcome where
  exitCode : ℤ
  final : Option RunState

/-- The body of `main` after command-line parsing (lines 124-237).  The two
boolean parameters say whether opening the primary output artifact
(lines 125-129) and the secondary progress artifact (lines 131-138) succeeds;
either failure returns `-1` before the step count is even computed.  Otherwise
the loop runs `max(totalSteps, 0)` times (`for(int i=0; i<totalSteps; ++i)`)
and `main` returns `0` (line 237).  The undefined `totalSteps` at
`increment = 0` propagates as `none`. -/
noncomputable def runMain (canOpenOutput canOpenProgress : Bool)
    (io : PECommandLineOptions) (solver : Solver) : Option MainOutcome :=
  if !canOpenOutput then some { exitCode := -1, final := none }
  else if io.progressFile && !canOpenProgress then some { exitCode := -1, final := none }
  else
    (totalSteps io).map fun t =>
      { exitCode := 0, final := some (runSteps io solver t t.toNat) }

/-- The effect on the file contents of `outputFile.seekp(pos)` followed by
stream insertions writing `s` (lines 221-225): the bytes from position `pos`
on are replaced by `s`, the file grows if `s` runs past the old end, and —
crucially — nothing is truncated: old bytes beyond `pos + s.length` stay. -/
def overwriteAt (content : List Char) (pos : ℕ) (s : List Char) : List Char :=
  content.take pos ++ s ++ content.drop (pos + s.length)

/-- Modelled from the spec: section 4.5 describes the rewrite as "the file is
truncated logically at that position before writing".  This definition follows
the spec words — everything from `pos` on is discarded before writing — and is
compared against the code's `overwriteAt`. -/
def truncateWriteAt (content : List Char) (pos : ℕ) (s : List Char) : List Char :=
  content.take pos ++ s

theorem runSteps_results (io : PECommandLineOptions) (solver : Solver) (t : ℤ)
    (n : ℕ) :
    (runSteps io solver t n).results = (List.range n).map (stepResult io solver) := by
  induction n with
  | zero => simp [runSteps, initState]
  | succ n ih =>
      cases hs : (stepResult io solver n).status <;>
        simp [runSteps, doStep, hs, ih, List.range_succ]

theorem runSteps_results_length (io : PECommandLineOptions) (solver : Solver)
    (t : ℤ) (n : ℕ) : ((runSteps io solver t n).results).length = n := by
  rw [runSteps_results]; simp

theorem runSteps_results_getElem (io : PECommandLineOptions) (solver : Solver)
    (t : ℤ) (n i : ℕ) (hi : i < n) :
    ((runSteps io solver t n).results)[i]? = some (stepResult io solver i) := by
  rw [runSteps_results]
  simp [List.getElem?_range, hi]

theorem runSteps_anySuccesses (io : PECommandLineOptions) (solver : Solver)
    (t : ℤ) (n : ℕ) :
    (runSteps io solver t n).anySuccesses =
      ((runSteps io solver t n).results).any
        fun r => decide (r.status = PEResultStatus.Success) := by
  induction n with
  | zero => simp [runSteps, initState]
  | succ n ih =>
      cases hs : (stepResult io solver n).status <;>
        simp [runSteps, doStep, hs, ih, List.any_append]

theorem runSteps_anyFailures (io : PECommandLineOptions) (solver : Solver)
    (t : ℤ) (n : ℕ) :
    (runSteps io solver t n).anyFailures =
      ((runSteps io solver t n).results).any
        fun r => decide (r.status = PEResultStatus.Failure) := by
  induction n with
  | zero => simp [runSteps, initState]
  | succ n ih =>
      cases hs : (stepResult io solver n).status <;>
        simp [runSteps, doStep, hs, ih, List.any_append]

theorem runSteps_flags_mono (io : PECommandLineOptions) (solver : Solver)
    (t : ℤ) (n : ℕ) :
    ((runSteps io solver t n).anySuccesses = true →
        (runSteps io solver t (n + 1)).anySuccesses = true) ∧
      ((runSteps io solver t n).anyFailures = true →
        (runSteps io solver t (n + 1)).anyFailures = true) := by
  constructor <;>
    · intro h
      cases hs : (stepResult io solver n).status <;> simp [runSteps, doStep, hs, h]

theorem runSteps_progress_succ (io : PECommandLineOptions) (solver : Solver)
    (t : ℤ) (n : ℕ) :
    (runSteps io solver t (n + 1)).progress =
      (runSteps io solver t n).progress ++
        [writeProgress ((n : ℤ) + 1) t
          ((runSteps io solver t (n + 1)).anySuccesses)
          ((runSteps io solver t (n + 1)).anyFailures)] := by
  cases hs : (stepResult io solver n).status <;> simp [runSteps, doStep, hs]

theorem runSteps_progress_length (io : PECommandLineOptions) (solver : Solver)
    (t : ℤ) (n : ℕ) : ((runSteps io solver t n).progress).length = n + 1 := by
  induction n with
  | zero => simp [runSteps, initState]
  | succ n ih => rw [runSteps_progress_succ]; simp [ih]

theorem runSteps_progress_getElem (io : PECommandLineOptions) (solver : Solver)
    (t : ℤ) (n k : ℕ) (hk : k < n) :
    ((runSteps io solver t n).progress)[k + 1]? =
      some (writeProgress ((k : ℤ) + 1) t
        ((runSteps io solver t (k + 1)).anySuccesses)
        ((runSteps io solver t (k + 1)).anyFailures)) := by
  induction n with
  | zero => omega
  | succ n ih =>
      rcases Nat.lt_succ_iff_lt_or_eq.1 hk with h | h
      · rw [runSteps_progress_succ, List.getElem?_append_left, ih h]
        rw [runSteps_progress_length]; omega
      · subst h
        rw [runSteps_progress_succ]
        have hlen : ((runSteps io solver t k).progress).length = k + 1 :=
          runSteps_progress_length io solver t k
        rw [show k + 1 = ((runSteps io solver t k).progress).length from hlen.symm,
          List.getElem?_concat_length]

theorem stepResult_coordinateValue (io : PECommandLineOptions) (solver : Solver)
    (i : ℕ) : (stepResult io solver i).coordinateValue = currentValue io i := rfl

theorem stepResult_stepIndex (io : PECommandLineOptions) (solver : Solver)
    (i : ℕ) : (stepResult io solver i).stepIndex = i := rfl

theorem stepResult_status (io : PECommandLineOptions) (solver : Solver) (i : ℕ) :
    (stepResult io solver i).status =
      (solver (incidenceAngle io i) (stepWavelength io i)).1 := rfl

theorem totalSteps_of_pos (io : PECommandLineOptions) (t : ℤ)
    (hinc : 0 < io.increment) (hle : io.min ≤ io.max)
    (hts : totalSteps io = some t) :
    t = ⌊(io.max - io.min) / io.increment⌋ + 1 ∧ 1 ≤ t := by
  have h0 : io.increment ≠ 0 := ne_of_gt hinc
  unfold totalSteps at hts
  rw [if_neg h0] at hts
  have hq : 0 ≤ (io.max - io.min) / io.increment :=
    div_nonneg (by linarith) hinc.le
  have htr : ratTrunc ((io.max - io.min) / io.increment) =
      ⌊(io.max - io.min) / io.increment⌋ := if_pos hq
  have ht : t = ⌊(io.max - io.min) / io.increment⌋ + 1 := by
    have := Option.some.inj hts
    rw [htr] at this
    omega
  refine ⟨ht, ?_⟩
  have : 0 ≤ ⌊(io.max - io.min) / io.increment⌋ := Int.floor_nonneg.mpr hq
  omega

theorem ratTrunc_intCast (z : ℤ) : ratTrunc (z : ℚ) = z := by
  unfold ratTrunc
  split <;> simp

theorem totalSteps_eval (io : PECommandLineOptions) (z t : ℤ)
    (h0 : io.increment ≠ 0) (h : (io.max - io.min) / io.increment = (z : ℚ))
    (hz : z + 1 = t) : totalSteps io = some t := by
  unfold totalSteps
  rw [if_neg h0, h, ratTrunc_intCast, hz]

/-- A trivially succeeding opaque solver, used to instantiate the
solver-polymorphic theorems at concrete runs. -/
def constSolver : Solver := fun _ _ => (PEResultStatus.Success, [])

/-- A solver whose every evaluation reports Failure. -/
def failSolver : Solver := fun _ _ => (PEResultStatus.Failure, [])

/-- A descending sweep: `--min 2 --max 0 --increment -1` in constant-incidence
mode.  `totalSteps = int((0-2)/(-1)) + 1 = 3`. -/
def ioDesc : PECommandLineOptions :=
  { mode := Mode.ConstantIncidence
    min := 2
    max := 0
    increment := -1
    incidenceAngle := 88
    includedAngle := 0
    toOrder := 0
    wavelength := 0
    eV := false
    period := 1
    progressFile := false
    printDebugOutput := false }

/-- C1 counterexample: the claim quantifies over every configuration, but for a
descending sweep (negative increment, a configuration the controller accepts:
`totalSteps = 3`) the three recorded coordinate values are `2, 1, 0`, which are
not in strictly ascending order. -/
theorem C1_counterexample :
    totalSteps ioDesc = some 3 ∧
      ((runSteps ioDesc constSolver 3 3).results).map PEResult.coordinateValue =
        [2, 1, 0] ∧
      ¬ List.Pairwise (fun a b => a.coordinateValue < b.coordinateValue)
          ((runSteps ioDesc constSolver 3 3).results) := by
  have hmap : ((runSteps ioDesc constSolver 3 3).results).map PEResult.coordinateValue =
      [2, 1, 0] := by
    rw [runSteps_results]
    rw [List.map_map]
    show List.map (fun i => (stepResult ioDesc constSolver i).coordinateValue)
      (List.range 3) = [2, 1, 0]
    simp [stepResult_coordinateValue, List.range_succ]
    norm_num [currentValue, ioDesc]
  refine ⟨totalSteps_eval ioDesc 2 3 (by norm_num [ioDesc]) (by norm_num [ioDesc])
    (by norm_num), hmap, fun h => ?_⟩
  have h2 := h.map PEResult.coordinateValue (fun _ _ hab => hab)
  rw [hmap] at h2
  exact absurd h2 (by decide)

/-- C1 (amended): for every configuration with positive increment and
`min ≤ max`, at Done the result sequence has exactly
`totalSteps = floor((max-min)/increment) + 1` entries, the entry at index `i`
is the step-`i` result carrying `coordinateValue = min + increment * i`, and
the coordinate values are strictly ascending. -/
theorem C1_done_results (io : PECommandLineOptions) (solver : Solver) (t : ℤ)
    (hinc : 0 < io.increment) (hle : io.min ≤ io.max)
    (hts : totalSteps io = some t) :
    t = ⌊(io.max - io.min) / io.increment⌋ + 1 ∧
      ((runSteps io solver t t.toNat).results).length = t.toNat ∧
      (t.toNat : ℤ) = t ∧
      (∀ i : ℕ, i < t.toNat →
        ((runSteps io solver t t.toNat).results)[i]? =
            some (stepResult io solver i) ∧
          (stepResult io solver i).coordinateValue = io.min + io.increment * i ∧
          (stepResult io solver i).stepIndex = i) ∧
      List.Pairwise (fun a b => a.coordinateValue < b.coordinateValue)
        ((runSteps io solver t t.toNat).results) := by
  obtain ⟨hteq, ht1⟩ := totalSteps_of_pos io t hinc hle hts
  refine ⟨hteq, runSteps_results_length _ _ _ _,
    Int.toNat_of_nonneg (by omega), fun i hi =>
      ⟨runSteps_results_getElem _ _ _ _ _ hi, rfl, rfl⟩, ?_⟩
  rw [runSteps_results]
  refine List.pairwise_map.mpr ((List.pairwise_lt_range _).imp ?_)
  intro a b hab
  rw [stepResult_coordinateValue, stepResult_coordinateValue]
  unfold currentValue
  have hq : (a : ℚ) < (b : ℚ) := by exact_mod_cast hab
  have := mul_lt_mul_of_pos_left hq hinc
  linarith

/-- An ascending three-step sweep used as the C1 witness configuration. -/
def ioAsc : PECommandLineOptions :=
  { mode := Mode.ConstantIncidence
    min := 0
    max := 2
    increment := 1
    incidenceAngle := 88
    includedAngle := 0
    toOrder := 0
    wavelength := 0
    eV := false
    period := 1
    progressFile := false
    printDebugOutput := false }

/-- C1 witness: the amended statement instantiated at the ascending three-step
sweep. -/
theorem C1_witness :
    (3 : ℤ) = ⌊((ioAsc.max - ioAsc.min) / ioAsc.increment : ℚ)⌋ + 1 ∧
      ((runSteps ioAsc constSolver 3 (3 : ℤ).toNat).results).length = (3 : ℤ).toNat ∧
      (((3 : ℤ).toNat : ℤ)) = 3 ∧
      (∀ i : ℕ, i < (3 : ℤ).toNat →
        ((runSteps ioAsc constSolver 3 (3 : ℤ).toNat).results)[i]? =
            some (stepResult ioAsc constSolver i) ∧
          (stepResult ioAsc constSolver i).coordinateValue =
            ioAsc.min + ioAsc.increment * i ∧
          (stepResult ioAsc constSolver i).stepIndex = i) ∧
      List.Pairwise (fun a b => a.coordinateValue < b.coordinateValue)
        ((runSteps ioAsc constSolver 3 (3 : ℤ).toNat).results) :=
  C1_done_results ioAsc constSolver 3 (by norm_num [ioAsc]) (by norm_num [ioAsc])
    (totalSteps_eval ioAsc 2 3 (by norm_num [ioAsc]) (by norm_num [ioAsc])
      (by norm_num))

/-- A single-point configuration with `min = max = 5` and `increment = 0`. -/
def ioZeroInc : PECommandLineOptions :=
  { mode := Mode.ConstantIncidence
    min := 5
    max := 5
    increment := 0
    incidenceAngle := 88
    includedAngle := 0
    toOrder := 0
    wavelength := 0
    eV := false
    period := 1
    progressFile := false
    printDebugOutput := false }

/-- C8 counterexample: at `min = max = 5` with `increment = 0` the step count
is not the claimed `1`: line 146 divides `0.0/0.0`, which is `NaN`, and the
`int` conversion of `NaN` is undefined behaviour, embedded as `none`. -/
theorem C8_counterexample :
    ioZeroInc.min = ioZeroInc.max ∧ totalSteps ioZeroInc = none ∧
      totalSteps ioZeroInc ≠ some 1 := by
  refine ⟨rfl, ?_, ?_⟩ <;> simp [totalSteps, ioZeroInc]

/-- C8 (amended): for every configuration with `min = max` and any nonzero
increment, of either sign and any magnitude, the computed step count is `1`;
at `increment = 0` the computation is undefined (`NaN` converted to `int`). -/
theorem C8_single_point (io : PECommandLineOptions) (heq : io.min = io.max)
    (h0 : io.increment ≠ 0) : totalSteps io = some 1 := by
  unfold totalSteps
  rw [if_neg h0]
  have hsub : io.max - io.min = 0 := by rw [heq, sub_self]
  rw [hsub, zero_div]
  have : ratTrunc 0 = 0 := by
    unfold ratTrunc
    rw [if_pos le_rfl, Int.floor_zero]
  rw [this]
  norm_num

/-- C8 witness: the amended statement at `min = max = 7`, `increment = -3`. -/
theorem C8_witness :
    totalSteps
      { mode := Mode.ConstantIncidence
        min := 7
        max := 7
        increment := -3
        incidenceAngle := 0
        includedAngle := 0
        toOrder := 0
        wavelength := 0
        eV := false
        period := 1
        progressFile := false
        printDebugOutput := false } = some 1 :=
  C8_single_point _ rfl (by norm_num)

/-- C10: for every configuration with positive increment and `min ≤ max`,
every executed step index yields a sweep coordinate
`currentValue = min + increment * i` inside the configured `[min, max]`
interval. -/
theorem C10_coordinate_in_range (io : PECommandLineOptions) (t : ℤ) (i : ℕ)
    (hinc : 0 < io.increment) (hle : io.min ≤ io.max)
    (hts : totalSteps io = some t) (hi : i < t.toNat) :
    io.min ≤ currentValue io i ∧ currentValue io i ≤ io.max := by
  obtain ⟨hteq, ht1⟩ := totalSteps_of_pos io t hinc hle hts
  have hfloor : (i : ℤ) ≤ ⌊(io.max - io.min) / io.increment⌋ := by
    have : (i : ℤ) < t := by
      have := Int.toNat_of_nonneg (show (0 : ℤ) ≤ t by omega)
      omega
    omega
  have hiq : (i : ℚ) ≤ (io.max - io.min) / io.increment := by
    have := Int.le_floor.mp hfloor
    exact_mod_cast this
  constructor
  · unfold currentValue
    have : 0 ≤ io.increment * (i : ℚ) := mul_nonneg hinc.le (by positivity)
    linarith
  · unfold currentValue
    have hmul : io.increment * (i : ℚ) ≤
        io.increment * ((io.max - io.min) / io.increment) :=
      mul_le_mul_of_nonneg_left hiq hinc.le
    have hcancel : io.increment * ((io.max - io.min) / io.increment) =
        io.max - io.min := by
      field_simp
    linarith

/-- C10 witness: the statement at the ascending three-step sweep, step 2. -/
theorem C10_witness :
    ioAsc.min ≤ currentValue ioAsc 2 ∧ currentValue ioAsc 2 ≤ ioAsc.max :=
  C10_coordinate_in_range ioAsc 3 2 (by norm_num [ioAsc]) (by norm_num [ioAsc])
    (totalSteps_eval ioAsc 2 3 (by norm_num [ioAsc]) (by norm_num [ioAsc])
      (by norm_num)) (by decide)

/-- C2: after every completed step `k` (0-based), the progress block written to
the artifacts is `writeProgress (k+1) totalSteps anySuccesses anyFailures`,
whose status is the pure function `runStatus` of (completedSteps, totalSteps,
anySuccess, anyFailure); the two flags equal the ORs over the recorded results
(monotonic, never reset: once true they stay true). -/
theorem C2_status_pure (io : PECommandLineOptions) (solver : Solver) (t : ℤ)
    (n k : ℕ) (hk : k < n) :
    ((runSteps io solver t n).progress)[k + 1]? =
        some (writeProgress ((k : ℤ) + 1) t
          ((runSteps io solver t (k + 1)).anySuccesses)
          ((runSteps io solver t (k + 1)).anyFailures)) ∧
      (writeProgress ((k : ℤ) + 1) t
          ((runSteps io solver t (k + 1)).anySuccesses)
          ((runSteps io solver t (k + 1)).anyFailures)).status =
        runStatus ((k : ℤ) + 1) t
          ((runSteps io solver t (k + 1)).anySuccesses)
          ((runSteps io solver t (k + 1)).anyFailures) ∧
      ((runSteps io solver t (k + 1)).anySuccesses =
        ((runSteps io solver t (k + 1)).results).any
          fun r => decide (r.status = PEResultStatus.Success)) ∧
      ((runSteps io solver t (k + 1)).anyFailures =
        ((runSteps io solver t (k + 1)).results).any
          fun r => decide (r.status = PEResultStatus.Failure)) ∧
      ((runSteps io solver t k).anySuccesses = true →
        (runSteps io solver t (k + 1)).anySuccesses = true) ∧
      ((runSteps io solver t k).anyFailures = true →
        (runSteps io solver t (k + 1)).anyFailures = true) :=
  ⟨runSteps_progress_getElem io solver t n k hk, rfl,
    runSteps_anySuccesses io solver t (k + 1),
    runSteps_anyFailures io solver t (k + 1),
    (runSteps_flags_mono io solver t k).1,
    (runSteps_flags_mono io solver t k).2⟩

/-- C2 witness: the progress record written after the second step of the
ascending three-step sweep. -/
theorem C2_witness :
    ((runSteps ioAsc constSolver 3 3).progress)[1 + 1]? =
      some (writeProgress (((1 : ℕ) : ℤ) + 1) 3
        ((runSteps ioAsc constSolver 3 (1 + 1)).anySuccesses)
        ((runSteps ioAsc constSolver 3 (1 + 1)).anyFailures)) :=
  (C2_status_pure ioAsc constSolver 3 3 1 (by decide)).1

/-- C6: failure to open the primary artifact — or the secondary progress
artifact when it was requested — ends the run with exit code `-1` before any
step executes (no controller state exists at all); conversely, with both
artifacts open, every step runs for every solver, so per-step solver failures
never terminate the run. -/
theorem C6_startup_fatal (canOpenOutput canOpenProgress : Bool)
    (io : PECommandLineOptions) (solver : Solver)
    (h : canOpenOutput = false ∨
      (io.progressFile = true ∧ canOpenProgress = false)) :
    runMain canOpenOutput canOpenProgress io solver =
        some { exitCode := -1, final := none } ∧
      (∀ solver2 : Solver, ∀ t : ℤ, totalSteps io = some t →
        ∃ st : RunState, runMain true true io solver2 =
            some { exitCode := 0, final := some st } ∧
          st.results.length = t.toNat) := by
  constructor
  · rcases h with h | ⟨h1, h2⟩
    · subst h; simp [runMain]
    · subst h2; cases canOpenOutput <;> simp [runMain, h1]
  · intro solver2 t ht
    exact ⟨runSteps io solver2 t t.toNat, by simp [runMain, ht],
      runSteps_results_length _ _ _ _⟩

/-- C6 witness: a run whose primary artifact cannot be opened exits with -1
and no step state. -/
theorem C6_witness :
    runMain false true ioAsc constSolver =
      some { exitCode := -1, final := none } :=
  (C6_startup_fatal false true ioAsc constSolver (Or.inl rfl)).1

/-- C9: with both artifacts open and a well-defined step count, `main` returns
exit code 0 for every solver; in particular the run whose every evaluation
fails still completes all steps and is classified AllFailed while exiting 0. -/
theorem C9_exit_zero (io : PECommandLineOptions) (solver : Solver) (t : ℤ)
    (hts : totalSteps io = some t) (ht : 1 ≤ t)
    (hfail : ∀ a w, (solver a w).1 = PEResultStatus.Failure) :
    (∀ solver2 : Solver, ∃ st2 : RunState, runMain true true io solver2 =
        some { exitCode := 0, final := some st2 }) ∧
      ∃ st : RunState, runMain true true io solver =
          some { exitCode := 0, final := some st } ∧
        st.results.length = t.toNat ∧
        st.anySuccesses = false ∧ st.anyFailures = true ∧
        runStatus t t st.anySuccesses st.anyFailures = RunStatus.AllFailed := by
  have hs : (runSteps io solver t t.toNat).anySuccesses = false := by
    rw [runSteps_anySuccesses, runSteps_results]
    simp [stepResult_status, hfail]
  have hf : (runSteps io solver t t.toNat).anyFailures = true := by
    rw [runSteps_anyFailures, runSteps_results]
    refine List.any_eq_true.mpr ⟨stepResult io solver 0, ?_, by simp [stepResult_status, hfail]⟩
    exact List.mem_map_of_mem _ (List.mem_range.mpr (by omega))
  refine ⟨fun solver2 => ⟨runSteps io solver2 t t.toNat, by simp [runMain, hts]⟩,
    runSteps io solver t t.toNat, by simp [runMain, hts],
    runSteps_results_length _ _ _ _, hs, hf, ?_⟩
  rw [hs, hf]
  unfold runStatus
  rw [if_neg (lt_irrefl t)]
  simp

/-- C9 witness: the all-failure run of the ascending three-step sweep. -/
theorem C9_witness :
    ∃ st : RunState, runMain true true ioAsc failSolver =
        some { exitCode := 0, final := some st } ∧
      st.results.length = (3 : ℤ).toNat ∧
      st.anySuccesses = false ∧ st.anyFailures = true ∧
      runStatus 3 3 st.anySuccesses st.anyFailures = RunStatus.AllFailed :=
  (C9_exit_zero ioAsc failSolver 3
    (totalSteps_eval ioAsc 2 3 (by norm_num [ioAsc]) (by norm_num [ioAsc])
      (by norm_num))
    (by norm_num) (fun _ _ => rfl)).2

/-- C4: in constant-included-angle mode, a step whose arcsine argument falls
outside [-1, 1] yields a non-real incidence angle, the solver boundary turns
it into a Failure StepResult (data, not a fault), the sweep still executes all
steps, and the run exits normally. -/
theorem C4_domain_failure (io : PECommandLineOptions)
    (core : ℝ → ℚ → PEResultStatus × List ℚ) (i : ℕ) (t : ℤ)
    (hmode : io.mode = Mode.ConstantIncludedAngle)
    (hdom : 1 < |ciaArg io i|) (hts : totalSteps io = some t)
    (hi : i < t.toNat) :
    ∃ st : RunState, runMain true true io (getEff core) =
        some { exitCode := 0, final := some st } ∧
      st.results.length = t.toNat ∧
      (st.results)[i]? = some (stepResult io (getEff core) i) ∧
      (stepResult io (getEff core) i).status = PEResultStatus.Failure := by
  refine ⟨runSteps io (getEff core) t t.toNat, by simp [runMain, hts],
    runSteps_results_length _ _ _ _, runSteps_results_getElem _ _ _ _ _ hi, ?_⟩
  rw [stepResult_status]
  have hangle : incidenceAngle io i = none := by
    simp only [incidenceAngle, hmode]
    rw [if_pos hdom]
  rw [hangle]
  rfl

/-- An opaque solver core that always succeeds, for instantiating the
`getEff` boundary. -/
def constCore : ℝ → ℚ → PEResultStatus × List ℚ :=
  fun _ _ => (PEResultStatus.Success, [])

/-- A single-step constant-included-angle sweep whose arcsine argument is 5,
outside [-1, 1]: sweeping wavelength 10 um on a 1 um period grating toward
order -1 with included angle 0. -/
def ioCIA : PECommandLineOptions :=
  { mode := Mode.ConstantIncludedAngle
    min := 10
    max := 10
    increment := 1
    incidenceAngle := 0
    includedAngle := 0
    toOrder := -1
    wavelength := 0
    eV := false
    period := 1
    progressFile := false
    printDebugOutput := false }

theorem ciaArg_ioCIA : ciaArg ioCIA 0 = 5 := by
  unfold ciaArg stepWavelength currentValue
  simp [ioCIA, Real.cos_zero]
  norm_num

/-- C4 witness: the out-of-domain single-step sweep runs to completion with a
recorded Failure result and exit code 0, even over an always-succeeding
solver core. -/
theorem C4_witness :
    ∃ st : RunState, runMain true true ioCIA (getEff constCore) =
        some { exitCode := 0, final := some st } ∧
      st.results.length = (1 : ℤ).toNat ∧
      (st.results)[0]? = some (stepResult ioCIA (getEff constCore) 0) ∧
      (stepResult ioCIA (getEff constCore) 0).status = PEResultStatus.Failure :=
  C4_domain_failure ioCIA constCore 0 1 rfl
    (by rw [ciaArg_ioCIA]; rw [abs_of_pos (by norm_num : (0 : ℝ) < 5)]; norm_num)
    (totalSteps_eval ioCIA 0 1 (by norm_num [ioCIA]) (by norm_num [ioCIA])
      (by norm_num))
    (by decide)

/-- C3: in constant-included-angle mode, for a step whose arcsine argument is
inside [-1, 1], the argument is `-toOrder * wavelength / (2 * period *
cos(cia/2))` with the wavelength the unit-converted sweep coordinate, and the
resolved incidence angle is `asin(argument) + cia/2` (radians, `cia` the
configured included angle in radians) converted to degrees. -/
theorem C3_included_angle (io : PECommandLineOptions) (i : ℕ)
    (hmode : io.mode = Mode.ConstantIncludedAngle)
    (hdom : |ciaArg io i| ≤ 1) :
    ciaArg io i =
        -(io.toOrder : ℝ) * ((toWavelength (currentValue io i) io.eV : ℚ) : ℝ) /
          (2 * (io.period : ℝ) *
            Real.cos (((io.includedAngle : ℝ) * Real.pi / 180) / 2)) ∧
      incidenceAngle io i =
        some ((Real.arcsin (ciaArg io i) +
          ((io.includedAngle : ℝ) * Real.pi / 180) / 2) * 180 / Real.pi) := by
  constructor
  · have hw : stepWavelength io i = toWavelength (currentValue io i) io.eV := by
      unfold stepWavelength toWavelength
      rw [hmode]
      simp
    unfold ciaArg
    rw [hw, div_div, div_div]
    ring
  · simp only [incidenceAngle, hmode]
    rw [if_neg (not_lt.mpr hdom)]

/-- A one-step constant-included-angle sweep with order 0, whose arcsine
argument is 0. -/
def ioCIA0 : PECommandLineOptions :=
  { mode := Mode.ConstantIncludedAngle
    min := 10
    max := 10
    increment := 1
    incidenceAngle := 0
    includedAngle := 0
    toOrder := 0
    wavelength := 0
    eV := false
    period := 1
    progressFile := false
    printDebugOutput := false }

theorem ciaArg_ioCIA0 : ciaArg ioCIA0 0 = 0 := by
  unfold ciaArg stepWavelength currentValue
  norm_num [ioCIA0]

/-- C3 witness: the included-angle formula instantiated at the order-0
single-step sweep, where the arcsine argument is 0. -/
theorem C3_witness :
    ciaArg ioCIA0 0 =
        -(ioCIA0.toOrder : ℝ) *
          ((toWavelength (currentValue ioCIA0 0) ioCIA0.eV : ℚ) : ℝ) /
          (2 * (ioCIA0.period : ℝ) *
            Real.cos (((ioCIA0.includedAngle : ℝ) * Real.pi / 180) / 2)) ∧
      incidenceAngle ioCIA0 0 =
        some ((Real.arcsin (ciaArg ioCIA0 0) +
          ((ioCIA0.includedAngle : ℝ) * Real.pi / 180) / 2) * 180 / Real.pi) :=
  C3_included_angle ioCIA0 0 rfl (by rw [ciaArg_ioCIA0]; norm_num)

/-- C5 counterexample: the per-step rewrite (`seekp` then stream insertion,
lines 221-225) does not truncate.  Rewriting the region of the file
`hdr ++ wxyz` (header length 3) with the shorter region `pq` leaves the stale
bytes `y`, `z` of the previous longer write in the file, unlike the
spec-modelled truncating write. -/
theorem C5_counterexample :
    overwriteAt (overwriteAt ['h', 'd', 'r'] 3 ['w', 'x', 'y', 'z']) 3
          ['p', 'q'] =
        ['h', 'd', 'r', 'p', 'q', 'y', 'z'] ∧
      truncateWriteAt (overwriteAt ['h', 'd', 'r'] 3 ['w', 'x', 'y', 'z']) 3
          ['p', 'q'] = ['h', 'd', 'r', 'p', 'q'] ∧
      overwriteAt (overwriteAt ['h', 'd', 'r'] 3 ['w', 'x', 'y', 'z']) 3
          ['p', 'q'] ≠
        truncateWriteAt (overwriteAt ['h', 'd', 'r'] 3 ['w', 'x', 'y', 'z']) 3
          ['p', 'q'] := by decide

/-- C5 (amended): each step's write repositions to the position recorded after
the header and overwrites the region in place, without truncation; the content
before that position is preserved, and whenever the new region is at least as
long as the previously written one the region afterwards is exactly the new
content, so stale bytes can survive only a shrinking rewrite. -/
theorem C5_rewrite_region (header old new : List Char)
    (h : old.length ≤ new.length) :
    overwriteAt (header ++ old) header.length new = header ++ new := by
  unfold overwriteAt
  rw [List.take_left]
  have hdrop : (header ++ old).drop (header.length + new.length) = [] := by
    apply List.drop_eq_nil_of_le
    rw [List.length_append]
    omega
  rw [hdrop, List.append_nil]

/-- C5 witness: growing the one-byte region `a` of the file `h ++ a` to the
region `bc` yields exactly `h ++ bc`. -/
theorem C5_witness :
    overwriteAt (['h'] ++ ['a']) (['h'] : List Char).length ['b', 'c'] =
      ['h'] ++ ['b', 'c'] :=
  C5_rewrite_region ['h'] ['a'] ['b', 'c'] (by decide)

/-- C7 counterexample: at value 0 with energy units the spec-modelled
converter signals a domain error (`none`), but the code (line 191) divides
unconditionally — IEEE double arithmetic yields `+inf` and the run simply
continues; over the `ℚ` embedding the division returns the junk value 0.  In
neither semantics does the code fail. -/
theorem C7_counterexample :
    toWavelengthSpec 0 true = none ∧ toWavelength 0 true = 0 ∧
      toWavelengthSpec 0 true ≠ some (toWavelength 0 true) := by
  refine ⟨by simp [toWavelengthSpec], by simp [toWavelength], ?_⟩
  simp [toWavelengthSpec]

/-- C7 (amended): the conversion returns the value unchanged when
`isEnergyUnits` is false and `K / value` (K the photon-energy-wavelength
product `M_HC`) when true; there is no domain check at `value = 0` — on every
other input the code conversion refines the spec-modelled converter. -/
theorem C7_unit_conversion (value : ℚ) (isEnergyUnits : Bool)
    (h : ¬(isEnergyUnits = true ∧ value = 0)) :
    (isEnergyUnits = false → toWavelength value isEnergyUnits = value) ∧
      (isEnergyUnits = true → toWavelength value isEnergyUnits = M_HC / value) ∧
      toWavelengthSpec value isEnergyUnits =
        some (toWavelength value isEnergyUnits) := by
  cases isEnergyUnits
  · refine ⟨fun _ => rfl, fun hc => absurd hc (by simp), ?_⟩
    simp [toWavelengthSpec, toWavelength]
  · have hv : value ≠ 0 := fun hv => h ⟨rfl, hv⟩
    refine ⟨by simp, fun _ => rfl, ?_⟩
    simp [toWavelengthSpec, toWavelength, hv]

/-- C7 witness: the amended statement at photon energy 2 eV. -/
theorem C7_witness :
    ((true : Bool) = false → toWavelength 2 true = 2) ∧
      ((true : Bool) = true → toWavelength 2 true = M_HC / 2) ∧
      toWavelengthSpec 2 true = some (toWavelength 2 true) :=
  C7_unit_conversion 2 true (by decide)

end PEG
